import Mathlib

/-!
Verification development for the opportunity extraction-and-notification
pipeline of python-smart-matter-detection.

Shallow embedding of the core pipeline code:
  * `backend/app/services/ai_service.py` — result validation and the
    retry-wrapped inference call;
  * `backend/app/services/opportunity_service.py` — atomic persistence of a
    communication with its opportunities, notification decision;
  * `backend/app/protobuf/helpers.py` — binary notification encoding and
    decoding (the generated protobuf module is not part of the source tree, so
    the wire format itself is modelled from the specification);
  * `backend/app/websocket/manager.py` — subscriber registry and broadcast.

Python strings are modelled as Lean `String`, JSON numbers as `ℚ`, absent
dictionary keys as `Option.none`.
-/

namespace SmartMatter

/-! ## Result Validator (`ai_service._validate_opportunities`) -/

/-- Value held in the `confidence` field of a raw candidate: a JSON number or
a JSON string (the two shapes the claims exercise; `float()` is applied to
whichever arrives). -/
inductive PyNum where
  | num (q : ℚ)
  | str (s : String)
deriving DecidableEq, Repr

/-- Raw candidate record decoded from the model response, a JSON dictionary.
`none` marks an absent key (or a `None`/empty value for the truthiness
checks, which Python treats alike). -/
structure RawOpp where
  title : Option String
  description : Option String
  type : Option String
  confidence : Option PyNum
  extracted_text : Option String
  estimated_value : Option String
deriving DecidableEq, Repr

/-- Normalized opportunity record emitted by the validator. -/
structure ValidatedOpp where
  title : String
  description : String
  type : String
  confidence : ℚ
  extracted_text : String
  estimated_value : Option String
deriving DecidableEq, Repr

/-- Python truthiness of `opp.get(key)` for a string-valued key: an absent
key and an empty string are both falsy. -/
def truthyStr : Option String → Bool
  | some s => s != ""
  | none => false

/-- Python slice `s[:n]`. -/
def pyTake (s : String) (n : Nat) : String :=
  String.mk (s.data.take n)

/-- Category token normalization from `_validate_opportunities`:
`opp.get("type", "").lower().replace("&", "").replace(" ", "_")`, then the
token `ma` is mapped back to `m&a`. -/
def normalizeType (s : String) : String :=
  let t := String.mk (((s.data.map Char.toLower).filter (fun c => c != '&')).map
    (fun c => if c = ' ' then '_' else c))
  if t = "ma" then "m&a" else t

/-- The five category tokens accepted by the validator (`valid_types` in
`_validate_opportunities`). -/
def valid_types : List String :=
  ["real_estate", "employment_law", "m&a", "ip", "litigation"]

/-- Decimal digit test. -/
def isDigit (c : Char) : Bool :=
  '0' ≤ c && c ≤ '9'

/-- Numeric value of a run of decimal digits. -/
def digitsToNat (cs : List Char) : Nat :=
  cs.foldl (fun acc c => acc * 10 + (c.toNat - '0'.toNat)) 0

/-- Python `float()` on a string: optional sign, then a decimal literal with
an optional fractional part (`"85"`, `"85.5"`, `".5"`, `"5."`). Any other
string raises `ValueError`, modelled as `none`. (Exponents, `inf`/`nan` and
surrounding whitespace — which CPython also accepts — lie outside the
rational carrier of this embedding and outside every claim.) -/
def pyFloatOfString (s : String) : Option ℚ :=
  let (neg, cs) :=
    match s.data with
    | '-' :: rest => (true, rest)
    | '+' :: rest => (false, rest)
    | cs => (false, cs)
  let intPart := cs.takeWhile isDigit
  let rest := cs.dropWhile isDigit
  let signed : ℚ → Option ℚ := fun v => some (if neg then -v else v)
  match rest with
  | [] =>
    if intPart.isEmpty then none
    else signed (digitsToNat intPart : ℚ)
  | '.' :: frac =>
    if frac.all isDigit && !(intPart.isEmpty && frac.isEmpty) then
      signed (mkRat (digitsToNat intPart * 10 ^ frac.length + digitsToNat frac)
        (10 ^ frac.length))
    else none
  | _ => none

/-- Python `float()` on the confidence value: numbers pass through, strings
are parsed; `none` is a raised `ValueError`. -/
def pyFloat : PyNum → Option ℚ
  | .num q => some q
  | .str s => pyFloatOfString s

/-- One iteration of the `_validate_opportunities` loop over a single raw
candidate: `some` is the normalized record appended to the result, `none`
means the candidate is skipped (invalid category token, confidence
unparseable or outside `[40, 100]`, or missing/empty title or description —
the `except (ValueError, KeyError)` arm and the explicit `continue`s all end
in a skip). -/
def validateOne (opp : RawOpp) : Option ValidatedOpp :=
  let opp_type := normalizeType (opp.type.getD "")
  if opp_type ∉ valid_types then none
  else
    match pyFloat (opp.confidence.getD (.num 0)) with
    | none => none
    | some confidence =>
      if confidence < 40 ∨ confidence > 100 then none
      else if truthyStr opp.title && truthyStr opp.description then
        some {
          title := pyTake (opp.title.getD "") 200
          description := opp.description.getD ""
          type := opp_type
          confidence := confidence
          extracted_text := opp.extracted_text.getD (opp.description.getD "")
          estimated_value := opp.estimated_value }
      else none

/-- `_validate_opportunities`: validate each raw candidate independently,
skipping rejected ones and keeping the accepted ones in response order. -/
def validate_opportunities (opportunities : List RawOpp) : List ValidatedOpp :=
  opportunities.filterMap validateOne

/-- A concrete well-formed raw candidate used by witnesses. -/
def sampleRaw : RawOpp :=
  { title := some "Office lease renewal"
    description := some "Client needs help with a lease"
    type := some "Real Estate"
    confidence := some (.num 85)
    extracted_text := some "we must renew the lease"
    estimated_value := some "$20k-50k" }

/-! ## Retry Policy (`ai_service.analyze_communication` under `@retry`) -/

/-- Outcome of one execution of the body of `analyze_communication` before
exception wrapping: the decoded candidate list on success, a JSON decode
failure, or any other exception raised by the inference call. -/
inductive BodyOutcome where
  | success (opps : List RawOpp)
  | jsonDecodeError (msg : String)
  | apiError (msg : String)
deriving DecidableEq, Repr

/-- Exception value as seen by the caller of the retry-wrapped call.
`aiService` is `AIServiceError`; `tenacityRetry` is `tenacity.RetryError`
holding the exception of the last attempt. -/
inductive RaisedError where
  | aiService (msg : String)
  | tenacityRetry (last : RaisedError)
deriving DecidableEq, Repr

/-- Whether the caller-visible exception is an `AIServiceError`. -/
def RaisedError.isAIServiceError : RaisedError → Bool
  | .aiService _ => true
  | .tenacityRetry _ => false

/-- One attempt of the body of `analyze_communication`: a JSON decode failure
is wrapped as `AIServiceError("Failed to parse AI response")`, any other
exception as `AIServiceError(f"AI service error: {e}")`; a successful
response is validated. -/
def analyzeBody (outcome : BodyOutcome) : Except RaisedError (List ValidatedOpp) :=
  match outcome with
  | .success opps => .ok (validate_opportunities opps)
  | .jsonDecodeError _ => .error (.aiService "Failed to parse AI response")
  | .apiError m => .error (.aiService ("AI service error: " ++ m))

/-- `tenacity.wait_exponential(multiplier, min, max)`: the wait slept after
the failed attempt numbered `attemptNumber` (attempts count from 1), namely
`clamp(multiplier * 2 ^ attemptNumber)` into `[min, max]` (and never below
0). -/
def waitExponential (multiplier minW maxW : ℚ) (attemptNumber : Nat) : ℚ :=
  max (max 0 minW) (min (multiplier * 2 ^ attemptNumber) maxW)

/-- `tenacity` retry driver with `stop_after_attempt` semantics and the
default `reraise=False`: run `body` for attempt numbers `n, n+1, ...` with
`fuel` retries remaining; a failure with no retries remaining raises
`RetryError` wrapping the last exception. Returns the final outcome, the
number of the last attempt made, and the waits slept between attempts. -/
def retryGo {A : Type} (body : Nat → Except RaisedError A) :
    Nat → Nat → Except RaisedError A × Nat × List ℚ
  | fuel, n =>
    match body n with
    | .ok a => (.ok a, n, [])
    | .error e =>
      match fuel with
      | 0 => (.error (.tenacityRetry e), n, [])
      | fuel + 1 =>
        let rest := retryGo body fuel (n + 1)
        (rest.1, rest.2.1, waitExponential 1 2 10 n :: rest.2.2)

/-- `@retry(stop=stop_after_attempt(stopAfter), wait=wait_exponential(multiplier=1, min=2, max=10))`
applied to `body`, starting at attempt number 1. -/
def retryRun {A : Type} (body : Nat → Except RaisedError A) (stopAfter : Nat) :
    Except RaisedError A × Nat × List ℚ :=
  retryGo body (stopAfter - 1) 1

/-- The retry-wrapped `analyze_communication`: the `k`-th attempt of the body
observes `outcomes k` (attempts are counted from 1); the decorator stops
after 3 attempts. Result: caller-visible outcome, attempts made, waits
slept. -/
def analyze_communication (outcomes : Nat → BodyOutcome) :
    Except RaisedError (List ValidatedOpp) × Nat × List ℚ :=
  retryRun (fun n => analyzeBody (outcomes n)) 3

/-! ## Data model enumerations (`models/communication.py`, `models/opportunity.py`) -/

/-- `CommunicationType` from `models/communication.py`. -/
inductive CommunicationType where
  | EMAIL | MEETING | NOTE
deriving DecidableEq, Repr

/-- `OpportunityType` from `models/opportunity.py`. -/
inductive OpportunityType where
  | REAL_ESTATE | EMPLOYMENT_LAW | MERGERS_AND_ACQUISITIONS
  | INTELLECTUAL_PROPERTY | LITIGATION
deriving DecidableEq, Repr

/-- The string value of each `OpportunityType` member. -/
def dbTypeName : OpportunityType → String
  | .REAL_ESTATE => "REAL_ESTATE"
  | .EMPLOYMENT_LAW => "EMPLOYMENT_LAW"
  | .MERGERS_AND_ACQUISITIONS => "MERGERS_AND_ACQUISITIONS"
  | .INTELLECTUAL_PROPERTY => "INTELLECTUAL_PROPERTY"
  | .LITIGATION => "LITIGATION"

/-- `TYPE_MAPPING` from `opportunity_service.py`: AI service category token
to database enum; a missing key is a Python `KeyError`, modelled as `none`. -/
def TYPE_MAPPING : String → Option OpportunityType
  | "real_estate" => some .REAL_ESTATE
  | "employment_law" => some .EMPLOYMENT_LAW
  | "m&a" => some .MERGERS_AND_ACQUISITIONS
  | "ip" => some .INTELLECTUAL_PROPERTY
  | "litigation" => some .LITIGATION
  | _ => none

/-! ## Persistence Transaction (`opportunity_service.create_communication_with_opportunities`) -/

/-- Committed `communications` row. Identifiers are modelled as naturals
assigned by the storage engine at flush time. -/
structure CommRow where
  id : Nat
  content : String
  client_name : String
  source_type : CommunicationType
deriving DecidableEq, Repr

/-- Committed `opportunities` row, as constructed in the insert loop. -/
structure OpportunityRow where
  communication_id : Nat
  title : String
  description : String
  opportunity_type : OpportunityType
  confidence : ℚ
  estimated_value : Option String
  extracted_text : String
deriving DecidableEq, Repr

/-- Storage state: rows visible to later queries (committed) and the rows of
the open unit of work (pending, added to the session but not committed). -/
structure DBState where
  committedComms : List CommRow
  committedOpps : List OpportunityRow
  pendingComms : List CommRow
  pendingOpps : List OpportunityRow
deriving DecidableEq, Repr

/-- `session.add(communication)`. -/
def DBState.addComm (db : DBState) (c : CommRow) : DBState :=
  { db with pendingComms := db.pendingComms ++ [c] }

/-- `session.add(opportunity)`. -/
def DBState.addOpp (db : DBState) (o : OpportunityRow) : DBState :=
  { db with pendingOpps := db.pendingOpps ++ [o] }

/-- `session.commit()`: the pending unit of work becomes visible. -/
def DBState.commit (db : DBState) : DBState :=
  { committedComms := db.committedComms ++ db.pendingComms
    committedOpps := db.committedOpps ++ db.pendingOpps
    pendingComms := []
    pendingOpps := [] }

/-- `session.rollback()`: the pending unit of work is discarded. -/
def DBState.rollback (db : DBState) : DBState :=
  { db with pendingComms := [], pendingOpps := [] }

/-- Error surfaced (re-raised) by the persistence unit of work. -/
inductive PipelineError where
  | ai (e : RaisedError)
  | keyError (k : String)
  | dbError (msg : String)
deriving DecidableEq, Repr

/-- The insert loop of `create_communication_with_opportunities` over the
extracted candidates: for the `i`-th candidate, construct the `Opportunity`
row (a `TYPE_MAPPING` miss raises `KeyError`) and add it to the session
(`addFail i` injects a storage fault at that add). Returns the state reached,
the rows constructed so far, and the first raised error if any. -/
def insertOpps (commId : Nat) (addFail : Nat → Option String) :
    List ValidatedOpp → Nat → DBState → List OpportunityRow →
    DBState × List OpportunityRow × Option PipelineError
  | [], _, db, acc => (db, acc, none)
  | opp :: rest, i, db, acc =>
    match TYPE_MAPPING opp.type with
    | none => (db, acc, some (.keyError opp.type))
    | some t =>
      let row : OpportunityRow :=
        { communication_id := commId
          title := opp.title
          description := opp.description
          opportunity_type := t
          confidence := opp.confidence
          estimated_value := opp.estimated_value
          extracted_text := opp.extracted_text }
      match addFail i with
      | some msg => (db, acc, some (.dbError msg))
      | none => insertOpps commId addFail rest (i + 1) (db.addOpp row) (acc ++ [row])

/-- `create_communication_with_opportunities`: add and flush the
communication (obtaining its generated identifier `newId`), then inside the
`try` block run the extraction, construct and add every opportunity, and
commit; any exception raised in the `try` block triggers `rollback()` and is
re-raised. `extraction` is the outcome of the awaited
`analyze_communication` call; `addFail`/`commitFail` inject storage faults. -/
def create_communication_with_opportunities
    (db : DBState) (newId : Nat) (content client_name : String)
    (source_type : CommunicationType)
    (extraction : Except RaisedError (List ValidatedOpp))
    (addFail : Nat → Option String) (commitFail : Option String) :
    DBState × Except PipelineError (CommRow × List OpportunityRow) :=
  let comm : CommRow :=
    { id := newId, content := content, client_name := client_name
      source_type := source_type }
  let db1 := db.addComm comm
  match extraction with
  | .error e => (db1.rollback, .error (.ai e))
  | .ok opps =>
    match insertOpps newId addFail opps 0 db1 [] with
    | (db2, _, some err) => (db2.rollback, .error err)
    | (db2, rows, none) =>
      match commitFail with
      | some msg => (db2.rollback, .error (.dbError msg))
      | none => (db2.commit, .ok (comm, rows))

/-! ## Notification Decision (`opportunity_service.should_notify`) -/

/-- `Opportunity` model instance as consumed by the notification code
(duck-typed in the source): `none` in `opportunity_type` stands for any
value outside the five-member enumeration, against which the encoder is
defensive. The identifier is carried as its string form `str(opportunity.id)`. -/
structure Opportunity where
  id : String
  title : String
  description : String
  opportunity_type : Option OpportunityType
  confidence : ℚ
  estimated_value : Option String
  extracted_text : String
deriving DecidableEq, Repr

/-- `should_notify` from `opportunity_service.py`: notify iff confidence is
at least 70. -/
def should_notify (opportunity : Opportunity) : Bool :=
  decide (opportunity.confidence ≥ 70)

/-! ## Notification wire format (`protobuf/helpers.py`)

Modelled from the spec: the generated `messages_pb2` module is not part of
the source tree. The spec fixes the field order
`opportunity_id, title, type, confidence, client_name, timestamp,
description`, each field length-prefixed or otherwise self-delimiting, and
the enumeration ordinals `REAL_ESTATE=0 EMPLOYMENT_LAW=1
MERGERS_AND_ACQUISITIONS=2 INTELLECTUAL_PROPERTY=3 LITIGATION=4 UNKNOWN=5`.
Bytes are naturals below 256; naturals travel as base-128 varints;
confidence is carried exactly (numerator and denominator), a superset of
the float32 precision the spec demands. -/

/-- Base-128 little-endian varint encoder, fuel-indexed so that recursion is
structural; `fuel ≥ n` always suffices. -/
def varintEncAux : Nat → Nat → List Nat
  | 0, n => [n]
  | fuel + 1, n =>
    if n < 128 then [n] else (n % 128 + 128) :: varintEncAux fuel (n / 128)

/-- Varint encoding of a natural number. -/
def varintEnc (n : Nat) : List Nat :=
  varintEncAux n n

/-- Varint decoder: the decoded value and the remaining bytes. -/
def varintDec : List Nat → Option (Nat × List Nat)
  | [] => none
  | b :: bs =>
    if b < 128 then some (b, bs)
    else
      match varintDec bs with
      | some (m, rest) => some (m * 128 + (b - 128), rest)
      | none => none

/-- Wire encoding of the characters of a string, one varint code point per
character. -/
def encChars : List Char → List Nat
  | [] => []
  | c :: cs => varintEnc c.toNat ++ encChars cs

/-- Wire decoding of `n` characters. -/
def decChars : Nat → List Nat → Option (List Char × List Nat)
  | 0, bs => some ([], bs)
  | n + 1, bs =>
    match varintDec bs with
    | none => none
    | some (v, bs') =>
      match decChars n bs' with
      | none => none
      | some (cs, rest) => some (Char.ofNat v :: cs, rest)

/-- Wire encoding of a string field: character count, then the characters. -/
def encString (s : String) : List Nat :=
  varintEnc s.data.length ++ encChars s.data

/-- Wire decoding of a string field. -/
def decString (bs : List Nat) : Option (String × List Nat) :=
  match varintDec bs with
  | none => none
  | some (n, bs') =>
    match decChars n bs' with
    | none => none
    | some (cs, rest) => some (String.mk cs, rest)

/-- Wire encoding of the (nonnegative) confidence value: numerator then
denominator. -/
def encRat (q : ℚ) : List Nat :=
  varintEnc q.num.toNat ++ varintEnc q.den

/-- Wire decoding of the confidence value. -/
def decRat (bs : List Nat) : Option (ℚ × List Nat) :=
  match varintDec bs with
  | none => none
  | some (n, bs') =>
    match varintDec bs' with
    | none => none
    | some (d, rest) => some (mkRat n d, rest)

/-- Wire ordinal of each protobuf `OpportunityType` member, as fixed by the
spec. -/
def wireOrdinal : OpportunityType → Nat
  | .REAL_ESTATE => 0
  | .EMPLOYMENT_LAW => 1
  | .MERGERS_AND_ACQUISITIONS => 2
  | .INTELLECTUAL_PROPERTY => 3
  | .LITIGATION => 4

/-- `OPPORTUNITY_TYPE_MAP.get(opportunity.opportunity_type, messages_pb2.UNKNOWN)`
from `helpers.py`: a category outside the five-entry table falls back to the
`UNKNOWN` ordinal 5. -/
def opportunityTypeOrdinal : Option OpportunityType → Nat
  | some t => wireOrdinal t
  | none => 5

/-- `messages_pb2.OpportunityType.Name` as used at decode time. Modelled
from the spec: decoders must treat an unrecognized ordinal as `UNKNOWN`
rather than erroring. -/
def opportunityTypeName (n : Nat) : String :=
  if n = 0 then "REAL_ESTATE"
  else if n = 1 then "EMPLOYMENT_LAW"
  else if n = 2 then "MERGERS_AND_ACQUISITIONS"
  else if n = 3 then "INTELLECTUAL_PROPERTY"
  else if n = 4 then "LITIGATION"
  else "UNKNOWN"

/-- `create_opportunity_notification` from `helpers.py`: serialize the
notification for one opportunity. `ts` is the capture timestamp taken at
encode time (`int(datetime.utcnow().timestamp())`), passed explicitly here. -/
def create_opportunity_notification
    (opportunity : Opportunity) (client_name : String) (ts : Nat) : List Nat :=
  encString opportunity.id ++
  encString opportunity.title ++
  varintEnc (opportunityTypeOrdinal opportunity.opportunity_type) ++
  encRat opportunity.confidence ++
  encString client_name ++
  varintEnc ts ++
  encString opportunity.description

/-- Dictionary returned by `parse_opportunity_notification`. -/
structure NotificationDict where
  opportunity_id : String
  title : String
  type : String
  confidence : ℚ
  client_name : String
  timestamp : Nat
  description : String
deriving DecidableEq, Repr

/-- `parse_opportunity_notification` from `helpers.py`: decode the fields in
order and render the type ordinal through the enumeration name table;
malformed bytes are a parse failure. -/
def parse_opportunity_notification (data : List Nat) : Option NotificationDict := do
  let (oid, r1) ← decString data
  let (title, r2) ← decString r1
  let (ord, r3) ← varintDec r2
  let (conf, r4) ← decRat r3
  let (cname, r5) ← decString r4
  let (ts, r6) ← varintDec r5
  let (descr, r7) ← decString r6
  if r7.isEmpty then
    pure { opportunity_id := oid, title := title, type := opportunityTypeName ord
           confidence := conf, client_name := cname, timestamp := ts
           description := descr }
  else none

/-- `create_notification_message` from `opportunity_service.py`: `None` when
the opportunity does not meet the notify threshold, otherwise the serialized
notification bytes. -/
def create_notification_message
    (opportunity : Opportunity) (client_name : String) (ts : Nat) :
    Option (List Nat) :=
  if !should_notify opportunity then none
  else some (create_opportunity_notification opportunity client_name ts)

/-! ## Subscriber Registry and Broadcast Dispatcher (`websocket/manager.py`) -/

/-- The `for connection in self.active_connections.copy()` loop of
`ConnectionManager.broadcast`: subscribers are opaque handles (naturals);
`sendOk c = false` means `send_bytes` raises for `c` (disconnect or any
other exception — both `except` arms collect the subscriber). Returns the
subscribers attempted, those that received the message, and the collected
`disconnected` set, all in iteration order. -/
def broadcastLoop (sendOk : Nat → Bool) :
    List Nat → List Nat × List Nat × List Nat
  | [] => ([], [], [])
  | c :: rest =>
    let (att, del, dis) := broadcastLoop sendOk rest
    if sendOk c then (c :: att, c :: del, dis)
    else (c :: att, del, c :: dis)

/-- `ConnectionManager.broadcast`: attempt a send to every registered
subscriber, then `disconnect` (set discard) each collected failure. Returns
the new registry, the subscribers attempted, and the subscribers that
received the message. No exception escapes: every send failure is caught in
the loop. -/
def ConnectionManager.broadcast (active : List Nat) (sendOk : Nat → Bool) :
    List Nat × List Nat × List Nat :=
  let r := broadcastLoop sendOk active
  (r.2.2.foldl (fun regs c => regs.erase c) active, r.1, r.2.1)

/-! ## Concrete sample inputs used by witnesses -/

/-- The normalized record the validator emits for `sampleRaw`. -/
def sampleValidated : ValidatedOpp :=
  { title := "Office lease renewal"
    description := "Client needs help with a lease"
    type := "real_estate"
    confidence := 85
    extracted_text := "we must renew the lease"
    estimated_value := some "$20k-50k" }

/-- A candidate with an unknown category token, rejected by the validator. -/
def badRaw : RawOpp :=
  { sampleRaw with type := some "tax" }

/-- A second well-formed candidate. -/
def sampleRaw2 : RawOpp :=
  { sampleRaw with title := some "Trademark filing", type := some "ip" }

/-- A candidate whose confidence arrives as the decimal string `"85"`. -/
def sampleRawStr : RawOpp :=
  { sampleRaw with confidence := some (.str "85") }

/-- A candidate whose confidence arrives as a non-numeric string. -/
def sampleRawBadStr : RawOpp :=
  { sampleRaw with confidence := some (.str "eighty-five") }

/-- A concrete high-confidence opportunity model instance. -/
def sampleOpportunity : Opportunity :=
  { id := "3f2b8c1a-0000-0000-0000-000000000001"
    title := "Office lease renewal"
    description := "Client needs help with a lease"
    opportunity_type := some .REAL_ESTATE
    confidence := 85
    estimated_value := some "$20k-50k"
    extracted_text := "we must renew the lease" }

/-- The same opportunity with a category outside the five-entry mapping. -/
def unknownOpportunity : Opportunity :=
  { sampleOpportunity with opportunity_type := none }

/-- An empty storage state. -/
def emptyDB : DBState :=
  { committedComms := [], committedOpps := [], pendingComms := [], pendingOpps := [] }

/-- The exception value the caller of the retried call observes, if any. -/
def callerException {A : Type} : Except RaisedError A × Nat × List ℚ → Option RaisedError
  | (.error e, _, _) => some e
  | (.ok _, _, _) => none

/-! ## Round-trip lemmas for the wire format -/

theorem varintDec_encAux (fuel : Nat) :
    ∀ n, n ≤ fuel → ∀ rest, varintDec (varintEncAux fuel n ++ rest) = some (n, rest) := by
  induction fuel with
  | zero =>
    intro n hn rest
    interval_cases n
    simp [varintEncAux, varintDec]
  | succ fuel ih =>
    intro n hn rest
    rw [varintEncAux]
    by_cases h : n < 128
    · simp [h, varintDec]
    · have hb : ¬ (n % 128 + 128 < 128) := by omega
      simp only [if_neg h, List.cons_append, varintDec, if_neg hb]
      rw [ih (n / 128) (by omega) rest]
      have hv : n / 128 * 128 + (n % 128 + 128 - 128) = n := by omega
      simp only [hv]

theorem varintDec_enc (n : Nat) (rest : List Nat) :
    varintDec (varintEnc n ++ rest) = some (n, rest) :=
  varintDec_encAux n n le_rfl rest

theorem decChars_encChars (cs : List Char) (rest : List Nat) :
    decChars cs.length (encChars cs ++ rest) = some (cs, rest) := by
  induction cs with
  | nil => simp [encChars, decChars]
  | cons c cs ih =>
    simp only [encChars, List.length_cons, List.append_assoc, decChars, varintDec_enc, ih,
      Char.ofNat_toNat]

theorem decString_encString (s : String) (rest : List Nat) :
    decString (encString s ++ rest) = some (s, rest) := by
  simp only [decString, encString, List.append_assoc, varintDec_enc, decChars_encChars]

theorem decString_encString_nil (s : String) : decString (encString s) = some (s, []) := by
  have h := decString_encString s []
  rwa [List.append_nil] at h

theorem decRat_enc (q : ℚ) (h : 0 ≤ q) (rest : List Nat) :
    decRat (encRat q ++ rest) = some (q, rest) := by
  simp only [decRat, encRat, List.append_assoc, varintDec_enc]
  rw [Int.toNat_of_nonneg (Rat.num_nonneg.mpr h), Rat.mkRat_self]

/-- Decoding a message built from seven well-formed fields recovers every
field, rendering the type ordinal through the enumeration name table. -/
theorem parse_fields (oid title : String) (ord : Nat) (q : ℚ) (h : 0 ≤ q)
    (cname : String) (ts : Nat) (descr : String) :
    parse_opportunity_notification (encString oid ++ encString title ++ varintEnc ord ++
      encRat q ++ encString cname ++ varintEnc ts ++ encString descr) =
      some { opportunity_id := oid, title := title, type := opportunityTypeName ord
             confidence := q, client_name := cname, timestamp := ts
             description := descr } := by
  simp [parse_opportunity_notification, List.append_assoc, decString_encString,
    decString_encString_nil, varintDec_enc, decRat_enc q h]

/-- Round trip of the full encoder: parsing the encoded notification of any
opportunity with nonnegative confidence recovers every field. -/
theorem parse_create (o : Opportunity) (client_name : String) (ts : Nat)
    (h : 0 ≤ o.confidence) :
    parse_opportunity_notification (create_opportunity_notification o client_name ts) =
      some { opportunity_id := o.id, title := o.title
             type := opportunityTypeName (opportunityTypeOrdinal o.opportunity_type)
             confidence := o.confidence, client_name := client_name, timestamp := ts
             description := o.description } := by
  rw [create_opportunity_notification]
  exact parse_fields o.id o.title (opportunityTypeOrdinal o.opportunity_type)
    o.confidence h client_name ts o.description

/-- Rendering the wire ordinal of a mapped category through the decode-time
name table gives that category's name. -/
theorem opportunityTypeName_wireOrdinal (c : OpportunityType) :
    opportunityTypeName (wireOrdinal c) = dbTypeName c := by
  cases c <;> rfl

/-! ## Claims -/

/-- C1: the Result Validator, evaluated at a batch of six valid candidates,
emits all six records. The claimed cap of 5 (excess candidates beyond the
5th dropped) is not enforced anywhere in `_validate_opportunities`; the
5-candidate maximum appears only as an instruction inside the model prompt. -/
theorem C1_validator_emits_six :
    (validate_opportunities (List.replicate 6 sampleRaw)).length = 6 := by decide

/-- C3: round-trip — for every opportunity whose category is in the
five-member enumeration and whose confidence lies in `[0, 100]`, parsing the
bytes produced by `create_opportunity_notification` reproduces the
identifier, title, category name, confidence (exactly, hence within float32
tolerance), client name, timestamp and description. -/
theorem C3_notification_round_trip (o : Opportunity) (client_name : String)
    (ts : Nat) (cat : OpportunityType) (hcat : o.opportunity_type = some cat)
    (h0 : 0 ≤ o.confidence) (h100 : o.confidence ≤ 100) :
    parse_opportunity_notification (create_opportunity_notification o client_name ts) =
      some { opportunity_id := o.id, title := o.title, type := dbTypeName cat
             confidence := o.confidence, client_name := client_name, timestamp := ts
             description := o.description } := by
  rw [parse_create o client_name ts h0, hcat]
  simp only [opportunityTypeOrdinal, opportunityTypeName_wireOrdinal]

/-- Witness for C3 at a concrete opportunity. -/
theorem C3_witness :
    (0 : ℚ) ≤ 85 ∧
    parse_opportunity_notification
        (create_opportunity_notification sampleOpportunity "Acme Corp" 1700000000) =
      some { opportunity_id := "3f2b8c1a-0000-0000-0000-000000000001"
             title := "Office lease renewal", type := "REAL_ESTATE"
             confidence := 85, client_name := "Acme Corp", timestamp := 1700000000
             description := "Client needs help with a lease" } :=
  ⟨by norm_num,
   C3_notification_round_trip sampleOpportunity "Acme Corp" 1700000000 .REAL_ESTATE rfl
     (by decide) (by decide)⟩

/-- C6: `should_notify` holds iff confidence is at least 70, and
`create_notification_message` returns `None` exactly on ineligible
opportunities and the encoded bytes exactly on eligible ones. -/
theorem C6_notify_threshold (o : Opportunity) (client_name : String) (ts : Nat) :
    (should_notify o = true ↔ 70 ≤ o.confidence) ∧
    (create_notification_message o client_name ts = none ↔ o.confidence < 70) ∧
    (70 ≤ o.confidence →
      create_notification_message o client_name ts =
        some (create_opportunity_notification o client_name ts)) := by
  by_cases h : 70 ≤ o.confidence <;>
    simp [should_notify, create_notification_message, h, not_le, lt_iff_not_le]

/-- Witness for C6 at a concrete eligible opportunity. -/
theorem C6_witness :
    create_notification_message sampleOpportunity "Acme Corp" 1700000000 =
      some (create_opportunity_notification sampleOpportunity "Acme Corp" 1700000000) :=
  (C6_notify_threshold sampleOpportunity "Acme Corp" 1700000000).2.2 (by decide)

/-- C9: the category mapping falls back to `UNKNOWN` instead of failing —
encoding an opportunity whose category is outside the five-entry table uses
the `UNKNOWN` ordinal 5, the resulting message decodes to the category name
`UNKNOWN`, a message carrying any unrecognized type ordinal decodes to
`UNKNOWN`, and the decode-time name table itself maps every ordinal outside
the five known ones to `UNKNOWN` rather than erroring. -/
theorem C9_unknown_fallback (o : Opportunity) (client_name oid title descr : String)
    (ts n : Nat) (q : ℚ) (hcat : o.opportunity_type = none)
    (h0 : 0 ≤ o.confidence) (hq : 0 ≤ q) (hn : 5 ≤ n) :
    opportunityTypeOrdinal o.opportunity_type = 5 ∧
    (parse_opportunity_notification
        (create_opportunity_notification o client_name ts)).map
      NotificationDict.type = some "UNKNOWN" ∧
    (parse_opportunity_notification (encString oid ++ encString title ++ varintEnc n ++
        encRat q ++ encString client_name ++ varintEnc ts ++ encString descr)).map
      NotificationDict.type = some "UNKNOWN" ∧
    opportunityTypeName n = "UNKNOWN" := by
  have hname : opportunityTypeName n = "UNKNOWN" := by
    rw [opportunityTypeName]
    rw [if_neg (by omega), if_neg (by omega), if_neg (by omega), if_neg (by omega),
      if_neg (by omega)]
  refine ⟨by rw [hcat]; rfl, ?_, ?_, hname⟩
  · rw [parse_create o client_name ts h0, hcat]
    rfl
  · rw [parse_fields oid title n q hq client_name ts descr]
    simp [hname]

/-- Witness for C9 at a concrete unmapped opportunity and ordinal 9. -/
theorem C9_witness :
    opportunityTypeOrdinal unknownOpportunity.opportunity_type = 5 ∧
    (parse_opportunity_notification
        (create_opportunity_notification unknownOpportunity "Acme Corp" 1700000000)).map
      NotificationDict.type = some "UNKNOWN" ∧
    (parse_opportunity_notification (encString "id-1" ++ encString "Lease" ++
        varintEnc 9 ++ encRat 85 ++ encString "Acme Corp" ++ varintEnc 1700000000 ++
        encString "desc")).map NotificationDict.type = some "UNKNOWN" ∧
    opportunityTypeName 9 = "UNKNOWN" :=
  C9_unknown_fallback unknownOpportunity "Acme Corp" "id-1" "Lease" "desc"
    1700000000 9 85 rfl (by decide) (by norm_num) (by norm_num)

theorem waitExp_one : waitExponential 1 2 10 1 = 2 := by
  norm_num [waitExponential]

theorem waitExp_two : waitExponential 1 2 10 2 = 4 := by
  norm_num [waitExponential]

/-- C4 (amended): the retried call makes at most 3 attempts in total; the
waits slept between attempts are the prefix `[2, 4]` of the exponential
backoff schedule starting at 2, doubling, capped at 10; and when all 3
attempts fail the caller receives tenacity's `RetryError` wrapping the last
`AIServiceError` — not the `AIServiceError` itself. -/
theorem C4_retry_policy (outcomes : Nat → BodyOutcome) :
    (analyze_communication outcomes).2.1 ≤ 3 ∧
    (analyze_communication outcomes).2.2 =
      [2, 4].take ((analyze_communication outcomes).2.1 - 1) ∧
    (∀ e1 e2 e3, analyzeBody (outcomes 1) = .error e1 →
      analyzeBody (outcomes 2) = .error e2 → analyzeBody (outcomes 3) = .error e3 →
      (analyze_communication outcomes).1 = .error (.tenacityRetry e3)) := by
  cases h1 : analyzeBody (outcomes 1) with
  | ok a1 =>
    have hv : analyze_communication outcomes = (.ok a1, 1, []) := by
      simp [analyze_communication, retryRun, retryGo, h1]
    refine ⟨by simp [hv], by simp [hv], ?_⟩
    intro e1 e2 e3 hh1 hh2 hh3
    exact absurd hh1 (by simp)
  | error e1c =>
    cases h2 : analyzeBody (outcomes 2) with
    | ok a2 =>
      have hv : analyze_communication outcomes = (.ok a2, 2, [2]) := by
        simp [analyze_communication, retryRun, retryGo, h1, h2, waitExp_one]
      refine ⟨by simp [hv], by simp [hv], ?_⟩
      intro e1 e2 e3 hh1 hh2 hh3
      exact absurd hh2 (by simp)
    | error e2c =>
      cases h3 : analyzeBody (outcomes 3) with
      | ok a3 =>
        have hv : analyze_communication outcomes = (.ok a3, 3, [2, 4]) := by
          simp [analyze_communication, retryRun, retryGo, h1, h2, h3,
            waitExp_one, waitExp_two]
        refine ⟨by simp [hv], by simp [hv], ?_⟩
        intro e1 e2 e3 hh1 hh2 hh3
        exact absurd hh3 (by simp)
      | error e3c =>
        have hv : analyze_communication outcomes =
            (.error (.tenacityRetry e3c), 3, [2, 4]) := by
          simp [analyze_communication, retryRun, retryGo, h1, h2, h3,
            waitExp_one, waitExp_two]
        refine ⟨by simp [hv], by simp [hv], ?_⟩
        intro e1 e2 e3 hh1 hh2 hh3
        simp only [Except.error.injEq] at hh3
        simp [hv, hh3]

/-- C4 counterexample: with every attempt failing, the exception the caller
receives after exhaustion is tenacity's `RetryError` wrapping the last
`AIServiceError`, not an `AIServiceError`. -/
theorem C4_counterexample :
    callerException (analyze_communication (fun _ => .apiError "boom")) =
      some (.tenacityRetry (.aiService "AI service error: boom")) ∧
    (callerException (analyze_communication (fun _ => .apiError "boom"))).map
      RaisedError.isAIServiceError = some false :=
  ⟨rfl, rfl⟩

/-- Witness for C4 at a concrete always-failing run. -/
theorem C4_witness :
    (analyze_communication (fun _ => .apiError "boom")).2.1 ≤ 3 ∧
    (analyze_communication (fun _ => .apiError "boom")).1 =
      .error (.tenacityRetry (.aiService "AI service error: boom")) := by
  have h := C4_retry_policy (fun _ => .apiError "boom")
  exact ⟨h.1, h.2.2 _ _ _ rfl rfl rfl⟩

/-- Every rejected candidate is dropped from the output without affecting
the processing of the rest of the batch. -/
theorem validate_skip (pre post : List RawOpp) (c : RawOpp)
    (hc : validateOne c = none) :
    validate_opportunities (pre ++ c :: post) =
      validate_opportunities pre ++ validate_opportunities post := by
  simp [validate_opportunities, List.filterMap_append, List.filterMap_cons, hc]

/-- C7: a candidate rejected by the validator is skipped without aborting
the batch — the records emitted for the batch are exactly those accepted
from the candidates before it followed by those accepted from the
candidates after it. -/
theorem C7_rejected_candidate_skipped (pre post : List RawOpp) (c : RawOpp)
    (hc : validateOne c = none) :
    validate_opportunities (pre ++ c :: post) =
      validate_opportunities pre ++ validate_opportunities post :=
  validate_skip pre post c hc

/-- Witness for C7: an unknown-category candidate between two valid ones. -/
theorem C7_witness :
    validateOne badRaw = none ∧
    validate_opportunities ([sampleRaw] ++ badRaw :: [sampleRaw2]) =
      validate_opportunities [sampleRaw] ++ validate_opportunities [sampleRaw2] :=
  ⟨by decide, C7_rejected_candidate_skipped [sampleRaw] [sampleRaw2] badRaw (by decide)⟩

/-- C10: the confidence check coerces with `float()` — a candidate whose
confidence is a decimal string parsing to a value in `[40, 100]` is accepted
(all other checks passing) and the emitted record carries the coerced
numeric value; a non-numeric confidence string raises `ValueError`, which is
caught, so only that candidate is skipped and the batch continues. -/
theorem C10_confidence_string_coercion (c : RawOpp) (s : String)
    (hs : c.confidence = some (.str s)) :
    (∀ q, pyFloatOfString s = some q → 40 ≤ q → q ≤ 100 →
      normalizeType (c.type.getD "") ∈ valid_types →
      truthyStr c.title = true → truthyStr c.description = true →
      ∃ r, validateOne c = some r ∧ r.confidence = q) ∧
    (pyFloatOfString s = none →
      validateOne c = none ∧
      ∀ pre post, validate_opportunities (pre ++ c :: post) =
        validate_opportunities pre ++ validate_opportunities post) := by
  constructor
  · intro q hq h40 h100 htype htitle hdesc
    have hrange : ¬ (q < 40 ∨ q > 100) := by
      push_neg
      exact ⟨h40, h100⟩
    refine ⟨{ title := pyTake (c.title.getD "") 200
              description := c.description.getD ""
              type := normalizeType (c.type.getD "")
              confidence := q
              extracted_text := c.extracted_text.getD (c.description.getD "")
              estimated_value := c.estimated_value }, ?_, rfl⟩
    simp [validateOne, hs, pyFloat, hq, htype, htitle, hdesc, hrange]
  · intro hnone
    have hv : validateOne c = none := by
      by_cases ht : normalizeType (c.type.getD "") ∈ valid_types <;>
        simp [validateOne, hs, pyFloat, hnone, ht]
    exact ⟨hv, fun pre post => validate_skip pre post c hv⟩

/-- Witness for C10: the decimal string `"85"` is accepted with coerced
value 85; a non-numeric string is skipped and the batch continues. -/
theorem C10_witness :
    (∃ r, validateOne sampleRawStr = some r ∧ r.confidence = 85) ∧
    validateOne sampleRawBadStr = none ∧
    validate_opportunities ([sampleRaw] ++ sampleRawBadStr :: [sampleRaw2]) =
      validate_opportunities [sampleRaw] ++ validate_opportunities [sampleRaw2] := by
  refine ⟨?_, ?_⟩
  · exact (C10_confidence_string_coercion sampleRawStr "85" rfl).1 85
      (by decide) (by norm_num) (by norm_num) (by decide) (by decide) (by decide)
  · have h := (C10_confidence_string_coercion sampleRawBadStr "eighty-five" rfl).2
      (by decide)
    exact ⟨h.1, h.2 [sampleRaw] [sampleRaw2]⟩

/-- The insert loop only ever adds pending rows: committed rows are exactly
those of the state it started from. -/
theorem insertOpps_committed (commId : Nat) (addFail : Nat → Option String) :
    ∀ (opps : List ValidatedOpp) (i : Nat) (db : DBState) (acc : List OpportunityRow),
      (insertOpps commId addFail opps i db acc).1.committedComms = db.committedComms ∧
      (insertOpps commId addFail opps i db acc).1.committedOpps = db.committedOpps := by
  intro opps
  induction opps with
  | nil =>
    intro i db acc
    exact ⟨rfl, rfl⟩
  | cons o rest ih =>
    intro i db acc
    rcases hT : TYPE_MAPPING o.type with _ | t <;> simp only [insertOpps, hT]
    · constructor <;> simp
    · rcases hA : addFail i with _ | msg <;> simp only [hA]
      · exact ih (i + 1) _ _
      · constructor <;> simp

/-- C2: if any step inside the unit of work fails after the communication
has been added — the extraction call, construction or insertion of any
opportunity, or the commit — the whole unit is rolled back and the
underlying error is re-raised: afterwards the committed store is exactly as
before the invocation and nothing from the invocation remains pending. -/
theorem C2_rollback_atomicity
    (db : DBState) (newId : Nat) (content client_name : String)
    (source_type : CommunicationType)
    (extraction : Except RaisedError (List ValidatedOpp))
    (addFail : Nat → Option String) (commitFail : Option String) :
    (∀ err,
      (create_communication_with_opportunities db newId content client_name source_type
          extraction addFail commitFail).2 = .error err →
      (create_communication_with_opportunities db newId content client_name source_type
          extraction addFail commitFail).1.committedComms = db.committedComms ∧
      (create_communication_with_opportunities db newId content client_name source_type
          extraction addFail commitFail).1.committedOpps = db.committedOpps ∧
      (create_communication_with_opportunities db newId content client_name source_type
          extraction addFail commitFail).1.pendingComms = [] ∧
      (create_communication_with_opportunities db newId content client_name source_type
          extraction addFail commitFail).1.pendingOpps = []) ∧
    (∀ e, extraction = .error e →
      (create_communication_with_opportunities db newId content client_name source_type
          extraction addFail commitFail).2 = .error (.ai e)) := by
  cases extraction with
  | error e =>
    constructor
    · intro err _
      exact ⟨rfl, rfl, rfl, rfl⟩
    · intro e' he
      simp only [Except.error.injEq] at he
      subst he
      rfl
  | ok opps =>
    refine ⟨?_, by intro e he; exact Except.noConfusion he⟩
    intro err herr
    rcases hI : insertOpps newId addFail opps 0
        (DBState.addComm db (CommRow.mk newId content client_name source_type)) []
      with ⟨db2, rows, errOpt⟩
    have hC := insertOpps_committed newId addFail opps 0
        (DBState.addComm db (CommRow.mk newId content client_name source_type)) []
    rw [hI] at hC
    rcases errOpt with _ | e2
    · rcases hF : commitFail with _ | msg
      · simp only [create_communication_with_opportunities, hI, hF] at herr
        exact absurd herr (by simp)
      · simp only [create_communication_with_opportunities, hI, hF]
        exact ⟨hC.1, hC.2, rfl, rfl⟩
    · simp only [create_communication_with_opportunities, hI]
      exact ⟨hC.1, hC.2, rfl, rfl⟩

/-- Witness for C2: insertion of the first opportunity fails; afterwards the
store holds no communication and no opportunity from the attempt. -/
theorem C2_witness :
    (create_communication_with_opportunities emptyDB 1 "We must renew the lease"
        "Acme Corp" .EMAIL (.ok [sampleValidated]) (fun _ => some "disk full")
        none).2 = .error (.dbError "disk full") ∧
    (create_communication_with_opportunities emptyDB 1 "We must renew the lease"
        "Acme Corp" .EMAIL (.ok [sampleValidated]) (fun _ => some "disk full")
        none).1.committedComms = [] ∧
    (create_communication_with_opportunities emptyDB 1 "We must renew the lease"
        "Acme Corp" .EMAIL (.ok [sampleValidated]) (fun _ => some "disk full")
        none).1.committedOpps = [] ∧
    (create_communication_with_opportunities emptyDB 1 "We must renew the lease"
        "Acme Corp" .EMAIL (.ok [sampleValidated]) (fun _ => some "disk full")
        none).1.pendingComms = [] ∧
    (create_communication_with_opportunities emptyDB 1 "We must renew the lease"
        "Acme Corp" .EMAIL (.ok [sampleValidated]) (fun _ => some "disk full")
        none).1.pendingOpps = [] := by
  have h := C2_rollback_atomicity emptyDB 1 "We must renew the lease" "Acme Corp"
    .EMAIL (.ok [sampleValidated]) (fun _ => some "disk full") none
  have h2 := h.1 (.dbError "disk full") rfl
  exact ⟨rfl, h2.1, h2.2.1, h2.2.2.1, h2.2.2.2⟩

/-- A string that survived the truthiness check is non-empty after `getD`. -/
theorem getD_ne_empty_of_truthy {o : Option String} (h : truthyStr o = true) :
    o.getD "" ≠ "" := by
  cases o with
  | none => simp [truthyStr] at h
  | some s => simpa [truthyStr, bne_iff_ne] using h

/-- A non-empty string has a non-empty character list. -/
theorem data_ne_nil_of_ne_empty {s : String} (h : s ≠ "") : s.data ≠ [] := by
  intro hd
  apply h
  cases s with
  | mk d =>
    simp only at hd
    rw [hd]

/-- A positive-length slice of a non-empty string is non-empty. -/
theorem pyTake_ne_empty {s : String} (h : s ≠ "") (n : Nat) (hn : n ≠ 0) :
    pyTake s n ≠ "" := by
  intro hc
  have hd : s.data.take n = [] := by
    have := congrArg String.data hc
    simpa [pyTake] using this
  rcases List.take_eq_nil_iff.mp hd with h0 | hnil
  · exact hn h0
  · exact data_ne_nil_of_ne_empty h hnil

/-- C5: every record emitted by the Result Validator has confidence in
`[40, 100]`, a category among the five known tokens, a non-empty title of at
most 200 characters that is the raw title truncated, a non-empty
description, and an extracted excerpt equal to the raw excerpt when that key
is present and to the description otherwise. -/
theorem C5_emitted_record_invariants (opps : List RawOpp) (r : ValidatedOpp)
    (hr : r ∈ validate_opportunities opps) :
    40 ≤ r.confidence ∧ r.confidence ≤ 100 ∧
    r.type ∈ valid_types ∧
    r.title.data.length ≤ 200 ∧ r.title ≠ "" ∧ r.description ≠ "" ∧
    ∃ c ∈ opps, validateOne c = some r ∧
      r.title = pyTake (c.title.getD "") 200 ∧
      r.extracted_text = c.extracted_text.getD r.description := by
  obtain ⟨c, hc, hv⟩ := List.mem_filterMap.mp hr
  have hv0 := hv
  simp only [validateOne] at hv
  by_cases ht : normalizeType (c.type.getD "") ∈ valid_types
  · rw [if_neg (not_not_intro ht)] at hv
    rcases hq : pyFloat (c.confidence.getD (.num 0)) with _ | q
    · simp only [hq] at hv
      exact absurd hv (by simp)
    · simp only [hq] at hv
      by_cases hrg : q < 40 ∨ q > 100
      · rw [if_pos hrg] at hv
        exact absurd hv (by simp)
      · rw [if_neg hrg] at hv
        by_cases htd : (truthyStr c.title && truthyStr c.description) = true
        · rw [if_pos htd] at hv
          obtain ⟨htt, htdd⟩ := Bool.and_eq_true_iff.mp htd
          push_neg at hrg
          injection hv with hrec
          subst hrec
          refine ⟨hrg.1, hrg.2, ht, ?_, ?_, ?_, c, hc, hv0, rfl, rfl⟩
          · show ((c.title.getD "").data.take 200).length ≤ 200
            rw [List.length_take]
            omega
          · exact pyTake_ne_empty (getD_ne_empty_of_truthy htt) 200 (by norm_num)
          · exact getD_ne_empty_of_truthy htdd
        · rw [if_neg htd] at hv
          exact absurd hv (by simp)
  · rw [if_pos ht] at hv
    exact absurd hv (by simp)

/-- Witness for C5 at a concrete one-candidate batch. -/
theorem C5_witness :
    40 ≤ sampleValidated.confidence ∧ sampleValidated.confidence ≤ 100 ∧
    sampleValidated.type ∈ valid_types ∧
    sampleValidated.title.data.length ≤ 200 ∧ sampleValidated.title ≠ "" ∧
    sampleValidated.description ≠ "" ∧
    ∃ c ∈ [sampleRaw], validateOne c = some sampleValidated ∧
      sampleValidated.title = pyTake (c.title.getD "") 200 ∧
      sampleValidated.extracted_text =
        c.extracted_text.getD sampleValidated.description :=
  C5_emitted_record_invariants [sampleRaw] sampleValidated (by decide)

/-- The broadcast loop attempts every registered subscriber in order,
delivers to exactly those whose send succeeds, and collects exactly those
whose send fails. -/
theorem broadcastLoop_eq (sendOk : Nat → Bool) (l : List Nat) :
    broadcastLoop sendOk l = (l, l.filter sendOk, l.filter (fun c => !sendOk c)) := by
  induction l with
  | nil => rfl
  | cons c rest ih =>
    simp only [broadcastLoop, ih, List.filter_cons]
    by_cases h : sendOk c <;> simp [h]

/-- Discarding each element of `ds` from a duplicate-free registry keeps
exactly the elements outside `ds`. -/
theorem foldl_erase_eq_filter (ds : List Nat) :
    ∀ (l : List Nat), l.Nodup →
      ds.foldl (fun regs c => regs.erase c) l =
        l.filter (fun c => decide (c ∉ ds)) := by
  induction ds with
  | nil =>
    intro l _
    simp
  | cons d ds ih =>
    intro l hl
    simp only [List.foldl_cons]
    rw [ih (l.erase d) (hl.erase d), hl.erase_eq_filter d, List.filter_filter]
    apply List.filter_congr
    intro x _
    show (decide (x ∉ ds) && (x != d)) = decide (x ∉ d :: ds)
    by_cases h1 : x = d <;> by_cases h2 : x ∈ ds <;>
      simp [h1, h2, List.mem_cons, bne]

/-- C8: broadcast attempts a send to every subscriber registered at
broadcast start, in registry order; the surviving registry and the delivered
set are exactly the subscribers whose send succeeded, so a failing
subscriber is removed (and only it), failures never abort the remaining
sends, and each surviving subscriber receives the message exactly once. -/
theorem C8_broadcast_isolation (active : List Nat) (sendOk : Nat → Bool)
    (h : active.Nodup) :
    (ConnectionManager.broadcast active sendOk).2.1 = active ∧
    (ConnectionManager.broadcast active sendOk).2.2 = active.filter sendOk ∧
    (ConnectionManager.broadcast active sendOk).1 = active.filter sendOk ∧
    (∀ s ∈ active, (ConnectionManager.broadcast active sendOk).2.2.count s =
      if sendOk s then 1 else 0) ∧
    (∀ s ∈ active, sendOk s = false →
      s ∉ (ConnectionManager.broadcast active sendOk).1) := by
  have hreg : (ConnectionManager.broadcast active sendOk).1 = active.filter sendOk := by
    show (broadcastLoop sendOk active).2.2.foldl (fun regs c => regs.erase c) active =
      active.filter sendOk
    rw [broadcastLoop_eq, foldl_erase_eq_filter _ active h]
    apply List.filter_congr
    intro x hx
    cases hs : sendOk x
    · simp [List.mem_filter, hx, hs]
    · simp [List.mem_filter, hs]
  refine ⟨?_, ?_, hreg, ?_, ?_⟩
  · show (broadcastLoop sendOk active).1 = active
    rw [broadcastLoop_eq]
  · show (broadcastLoop sendOk active).2.1 = active.filter sendOk
    rw [broadcastLoop_eq]
  · intro s hs
    show (broadcastLoop sendOk active).2.1.count s = if sendOk s then 1 else 0
    rw [broadcastLoop_eq]
    cases hsend : sendOk s
    · show (List.filter sendOk active).count s = 0
      rw [List.count_eq_zero]
      intro hmem
      have h2 := (List.mem_filter.mp hmem).2
      rw [hsend] at h2
      exact Bool.false_ne_true h2
    · show (List.filter sendOk active).count s = 1
      rw [List.count_filter hsend]
      exact List.count_eq_one_of_mem h hs
  · intro s hs hfail
    rw [hreg]
    intro hmem
    have := (List.mem_filter.mp hmem).2
    rw [hfail] at this
    exact Bool.false_ne_true this

/-- Witness for C8: three registered subscribers, the second failing. -/
theorem C8_witness :
    (ConnectionManager.broadcast [1, 2, 3] (fun c => c != 2)).2.1 = [1, 2, 3] ∧
    (ConnectionManager.broadcast [1, 2, 3] (fun c => c != 2)).2.2.count 1 = 1 ∧
    (ConnectionManager.broadcast [1, 2, 3] (fun c => c != 2)).2.2.count 3 = 1 ∧
    2 ∉ (ConnectionManager.broadcast [1, 2, 3] (fun c => c != 2)).1 := by
  have h := C8_broadcast_isolation [1, 2, 3] (fun c => c != 2) (by decide)
  refine ⟨h.1, ?_, ?_, h.2.2.2.2 2 (by decide) rfl⟩
  · rw [h.2.2.2.1 1 (by decide)]
    simp
  · rw [h.2.2.2.1 3 (by decide)]
    simp

end SmartMatter
